import Mathlib

/-!
# Verification of `tmux-organize` (torganize) against its design spec

Shallow embedding of `src/tmux_organize/organize.py` (data model, cache
fingerprint, JSON extraction, plan validation, the two-phase plan applier,
and the organize control flow) together with theorems settling the frozen
claims about the program.

Conventions of the embedding:
* Python `dict`s coming from JSON are modelled by dedicated structures;
  optional keys become `Option` fields.
* tmux window indices and JSON integers are modelled as `Int`.
* The external collaborators (tmux command runner, `otop`, `opencode`,
  the filesystem cache) are modelled by explicit inputs / effect traces.
* `hashlib.sha256` is implemented in full (FIPS 180-4) over UTF-8 bytes,
  with 32-bit words as `Nat` reduced `% 2^32`.
-/

/- ---------------------------------------------------------------- -/
/- Data model (tmux.py: PaneContext / WindowContext / SessionContext) -/
/- ---------------------------------------------------------------- -/

/-- `PaneContext` from `tmux.py`: one multiplexer pane. -/
structure PaneContext where
  command : String
  cmdline : String
  directory : String
  full_path : String
  title : String
deriving DecidableEq, Repr

/-- `WindowContext` from `tmux.py`: one multiplexer window. -/
structure WindowContext where
  id : String
  index : Int
  name : String
  panes : List PaneContext
deriving DecidableEq, Repr

/-- `SessionContext` from `tmux.py`: one session snapshot. -/
structure SessionContext where
  session_id : String
  session_path : String
  windows : List WindowContext
deriving DecidableEq, Repr

/-- One entry of a plan's `windows` list (`WindowPlan` in `organize.py`). -/
structure WindowPlan where
  id : String
  name : String
  index : Int
deriving DecidableEq, Repr

/-- A candidate plan as it arrives from JSON or from the cache: a Python
dict whose `session` / `windows` keys may be absent.  `hasOtherKeys`
records whether the dict carries any further keys, which only matters for
Python truthiness (`if not plan:`) in `main`. -/
structure RawPlan where
  session : Option String
  windows : Option (List WindowPlan)
  hasOtherKeys : Bool
deriving DecidableEq, Repr

/-- Python truthiness of the plan dict: falsy iff it is the empty dict.
(`read_cached_plan` returning `None` is modelled by `Option RawPlan`.) -/
def RawPlan.falsy (p : RawPlan) : Bool :=
  p.session.isNone && p.windows.isNone && !p.hasOtherKeys

/- ---------------------------------------------------------------- -/
/- validate_plan (organize.py lines 292-313)                          -/
/- ---------------------------------------------------------------- -/

/-- Python set equality of two id collections:
`{w["id"] for w in context} == {w["id"] for w in plan}`. -/
def setEqStr (l1 l2 : List String) : Bool :=
  l1.all (fun x => l2.contains x) && l2.all (fun x => l1.contains x)

/-- Python string comparison: code-point lexicographic order on the
character lists (a strict prefix sorts first). -/
def charListLe : List Char → List Char → Bool
  | [], _ => true
  | _ :: _, [] => false
  | a :: as, b :: bs =>
    if a.toNat < b.toNat then true
    else if b.toNat < a.toNat then false
    else charListLe as bs

/-- Python `s1 <= s2` on strings. -/
def strLeB (a b : String) : Bool := charListLe a.data b.data

/-- `sorted(s)` for a Python set of strings built from a list: deduplicate,
then sort by code-point lexicographic order. -/
def sortedSet (l : List String) : List String :=
  List.insertionSort (fun a b => strLeB a b = true) l.dedup

/-- `validate_plan` from `organize.py`: check the plan accounts for all
windows with unique indices; `none` iff valid, `some msg` on rejection. -/
def validate_plan (plan : RawPlan) (context : SessionContext) : Option String :=
  match plan.session, plan.windows with
  | some _, some ws =>
    let context_ids := context.windows.map (fun w => w.id)
    let plan_ids := ws.map (fun w => w.id)
    let plan_indices := ws.map (fun w => w.index)
    if setEqStr context_ids plan_ids then
      if plan_indices.dedup.length = plan_indices.length then
        none
      else
        some "duplicate indices"
    else
      let missing := sortedSet (context_ids.filter (fun i => !plan_ids.contains i))
      let extra := sortedSet (plan_ids.filter (fun i => !context_ids.contains i))
      let parts :=
        (if missing.isEmpty then [] else ["missing " ++ String.intercalate "," missing]) ++
        (if extra.isEmpty then [] else ["extra " ++ String.intercalate "," extra])
      some ("window id mismatch: " ++ String.intercalate "; " parts)
  | _, _ => some "missing session/windows keys"

/- ---------------------------------------------------------------- -/
/- SHA-256 (model of hashlib.sha256, FIPS 180-4), over UTF-8 bytes   -/
/- ---------------------------------------------------------------- -/

def w32 (n : Nat) : Nat := n % 4294967296

def rotr32 (x n : Nat) : Nat := w32 ((x >>> n) ||| (x <<< (32 - n)))

def not32 (x : Nat) : Nat := 4294967295 - x

def bigSigma0 (x : Nat) : Nat := (rotr32 x 2) ^^^ (rotr32 x 13) ^^^ (rotr32 x 22)

def bigSigma1 (x : Nat) : Nat := (rotr32 x 6) ^^^ (rotr32 x 11) ^^^ (rotr32 x 25)

def smallSigma0 (x : Nat) : Nat := (rotr32 x 7) ^^^ (rotr32 x 18) ^^^ (x >>> 3)

def smallSigma1 (x : Nat) : Nat := (rotr32 x 17) ^^^ (rotr32 x 19) ^^^ (x >>> 10)

def chFn (e f g : Nat) : Nat := (e &&& f) ^^^ ((not32 e) &&& g)

def majFn (a b c : Nat) : Nat := (a &&& b) ^^^ (a &&& c) ^^^ (b &&& c)

def sha256K : List Nat :=
  [1116352408, 1899447441, 3049323471, 3921009573, 961987163, 1508970993,
   2453635748, 2870763221, 3624381080, 310598401, 607225278, 1426881987,
   1925078388, 2162078206, 2614888103, 3248222580, 3835390401, 4022224774,
   264347078, 604807628, 770255983, 1249150122, 1555081692, 1996064986,
   2554220882, 2821834349, 2952996808, 3210313671, 3336571891, 3584528711,
   113926993, 338241895, 666307205, 773529912, 1294757372, 1396182291,
   1695183700, 1986661051, 2177026350, 2456956037, 2730485921, 2820302411,
   3259730800, 3345764771, 3516065817, 3600352804, 4094571909, 275423344,
   430227734, 506948616, 659060556, 883997877, 958139571, 1322822218,
   1537002063, 1747873779, 1955562222, 2024104815, 2227730452, 2361852424,
   2428436474, 2756734187, 3204031479, 3329325298]

def sha256H0 : List Nat :=
  [1779033703, 3144134277, 1013904242, 2773480762,
   1359893119, 2600822924, 528734635, 1541459225]

def sha256Pad (msg : List Nat) : List Nat :=
  let len := msg.length
  let z := (119 - (len % 64)) % 64
  let bitLen := 8 * len
  msg ++ [128] ++ List.replicate z 0 ++ (List.range 8).map (fun i => (bitLen >>> (8 * (7 - i))) % 256)

def chunksGo (fuel : Nat) (bs : List Nat) : List (List Nat) :=
  match fuel, bs with
  | _, [] => []
  | 0, _ => []
  | f + 1, b :: rest => ((b :: rest).take 64) :: chunksGo f ((b :: rest).drop 64)

def bytesToWords : List Nat → List Nat
  | b0 :: b1 :: b2 :: b3 :: rest => (((b0 * 256 + b1) * 256 + b2) * 256 + b3) :: bytesToWords rest
  | _ => []

def schedGo (fuel : Nat) (w : List Nat) : List Nat :=
  match fuel with
  | 0 => w
  | f + 1 =>
    let t := w.length
    let nw := w32 (smallSigma1 (w.getD (t - 2) 0) + w.getD (t - 7) 0 +
                   smallSigma0 (w.getD (t - 15) 0) + w.getD (t - 16) 0)
    schedGo f (w ++ [nw])

structure Hv where
  a : Nat
  b : Nat
  c : Nat
  d : Nat
  e : Nat
  f : Nat
  g : Nat
  h : Nat

def roundFn (s : Hv) (k w : Nat) : Hv :=
  let t1 := w32 (s.h + bigSigma1 s.e + chFn s.e s.f s.g + k + w)
  let t2 := w32 (bigSigma0 s.a + majFn s.a s.b s.c)
  ⟨w32 (t1 + t2), s.a, s.b, s.c, w32 (s.d + t1), s.e, s.f, s.g⟩

def compressBlock (hs : List Nat) (block : List Nat) : List Nat :=
  let ws := schedGo 48 (bytesToWords block)
  let init : Hv := ⟨hs.getD 0 0, hs.getD 1 0, hs.getD 2 0, hs.getD 3 0,
                    hs.getD 4 0, hs.getD 5 0, hs.getD 6 0, hs.getD 7 0⟩
  let fin := (sha256K.zip ws).foldl (fun s p => roundFn s p.1 p.2) init
  [w32 (hs.getD 0 0 + fin.a), w32 (hs.getD 1 0 + fin.b), w32 (hs.getD 2 0 + fin.c),
   w32 (hs.getD 3 0 + fin.d), w32 (hs.getD 4 0 + fin.e), w32 (hs.getD 5 0 + fin.f),
   w32 (hs.getD 6 0 + fin.g), w32 (hs.getD 7 0 + fin.h)]

def sha256Words (msg : List Nat) : List Nat :=
  let padded := sha256Pad msg
  (chunksGo padded.length padded).foldl compressBlock sha256H0

def hexDigit (n : Nat) : Char :=
  if n < 10 then Char.ofNat (48 + n) else Char.ofNat (87 + n)

def wordHex (w : Nat) : List Char :=
  (List.range 8).map (fun i => hexDigit ((w >>> (4 * (7 - i))) % 16))

def utf8Bytes : List Char → List Nat
  | [] => []
  | c :: cs =>
    let n := c.toNat
    (if n < 128 then [n]
     else if n < 2048 then [192 ||| (n >>> 6), 128 ||| (n &&& 63)]
     else if n < 65536 then
       [224 ||| (n >>> 12), 128 ||| ((n >>> 6) &&& 63), 128 ||| (n &&& 63)]
     else
       [240 ||| (n >>> 18), 128 ||| ((n >>> 12) &&& 63),
        128 ||| ((n >>> 6) &&& 63), 128 ||| (n &&& 63)]) ++ utf8Bytes cs

def sha256HexChars (s : String) : List Char :=
  ((sha256Words (utf8Bytes s.data)).map wordHex).flatten

def sha256Hex (s : String) : String := String.mk (sha256HexChars s)

/- ---------------------------------------------------------------- -/
/- build_cache_key (organize.py lines 40-68)                          -/
/- ---------------------------------------------------------------- -/

/-- Python `sorted` on a list of strings (ascending code-point
lexicographic order; for strings, equal elements are identical, so
insertion sort is a faithful model of the stable sort). -/
def sortStrings (l : List String) : List String :=
  List.insertionSort (fun a b => strLeB a b = true) l

/-- The `"%(cmdline)s:%(path)s"` pane fingerprint with Python's
`p["cmdline"] or p["command"]` (empty string is falsy). -/
def paneFingerprint (p : PaneContext) : String :=
  (if p.cmdline = "" then p.command else p.cmdline) ++ ":" ++ p.full_path

/-- One entry of `stable_parts`: `"%(name)s|%(panes)s"` where `panes` is
the `"|"`-join of the sorted pane fingerprints. -/
def windowFingerprint (w : WindowContext) : String :=
  w.name ++ "|" ++ String.intercalate "|" (sortStrings (w.panes.map paneFingerprint))

/-- `raw_key` from `build_cache_key`:
`"%(path)s;%(windows)s;%(oc)s"` with the window fingerprints joined by
`";"`. -/
def raw_key (context : SessionContext) (opencode_context : String) : String :=
  context.session_path ++ ";" ++
    String.intercalate ";" (context.windows.map windowFingerprint) ++ ";" ++
    opencode_context

/-- `build_cache_key` from `organize.py`:
`hashlib.sha256(raw_key.encode()).hexdigest()[:16]`. -/
def build_cache_key (context : SessionContext) (opencode_context : String) : String :=
  String.mk ((sha256HexChars (raw_key context opencode_context)).take 16)

/-- Modelled from the spec (§4.3 fingerprint algorithm, as the claim reads
it): the per-window fingerprint built from the window name and the sorted
SET of pane descriptor strings — i.e. duplicates removed before sorting.
Used only to compare the spec's words against the code. -/
def specWindowFingerprintSet (w : WindowContext) : String :=
  w.name ++ "|" ++
    String.intercalate "|" (sortedSet (w.panes.map paneFingerprint))

/-- Modelled from the spec (§4.3): concatenate session path, the joined
per-window fingerprints (window order significant), and the enrichment
text; digest; take the 16-hex-character prefix.  Pane descriptors
deduplicated, following the claim's "sorted set" wording. -/
def specCacheKeySet (context : SessionContext) (opencode_context : String) : String :=
  let joined := String.intercalate ";" (context.windows.map specWindowFingerprintSet)
  String.mk ((sha256HexChars
    (context.session_path ++ ";" ++ joined ++ ";" ++ opencode_context)).take 16)

/-- Modelled from the spec (§4.3), amended: same as `specCacheKeySet` but
with the sorted LIST of pane descriptors (duplicates preserved), which is
what the code actually hashes. -/
def specCacheKeyList (context : SessionContext) (opencode_context : String) : String :=
  let winFp := fun (w : WindowContext) =>
    w.name ++ "|" ++ String.intercalate "|" (sortStrings (w.panes.map paneFingerprint))
  let joined := String.intercalate ";" (context.windows.map winFp)
  String.mk ((sha256HexChars
    (context.session_path ++ ";" ++ joined ++ ";" ++ opencode_context)).take 16)

/- ---------------------------------------------------------------- -/
/- JSON (model of json.loads, restricted to integer numerals) and    -/
/- extract_json_from_output (organize.py lines 172-188)              -/
/- ---------------------------------------------------------------- -/

/-- JSON values as `json.loads` produces them.  Numbers are modelled as
integers only: no claim touches non-integer numerals, and floating point
is outside the embedding. -/

inductive Json where
  | null : Json
  | bool (b : Bool) : Json
  | num (n : Int) : Json
  | str (s : String) : Json
  | arr (items : List Json) : Json
  | obj (fields : List (String × Json)) : Json

def skipWs (cs : List Char) : List Char :=
  cs.dropWhile (fun c => c = ' ' ∨ c = '\t' ∨ c = '\n' ∨ c = '\r')

def assocSet (l : List (String × Json)) (k : String) (v : Json) : List (String × Json) :=
  if l.any (fun p => p.1 = k) then l.map (fun p => if p.1 = k then (k, v) else p)
  else l ++ [(k, v)]

def escMap (e : Char) : Option Char :=
  if e = '"' then some '"'
  else if e = '\\' then some '\\'
  else if e = '/' then some '/'
  else if e = 'b' then some (Char.ofNat 8)
  else if e = 'f' then some (Char.ofNat 12)
  else if e = 'n' then some '\n'
  else if e = 'r' then some '\r'
  else if e = 't' then some '\t'
  else none

def hexVal (c : Char) : Option Nat :=
  if c.isDigit then some (c.toNat - 48)
  else if 'a' ≤ c ∧ c ≤ 'f' then some (c.toNat - 87)
  else if 'A' ≤ c ∧ c ≤ 'F' then some (c.toNat - 55)
  else none

def parseNum (cs : List Char) : Option (Json × List Char) :=
  let (neg, cs1) := match cs with
    | '-' :: rest => (true, rest)
    | _ => (false, cs)
  let ds := cs1.takeWhile (fun c => c.isDigit)
  let rest := cs1.dropWhile (fun c => c.isDigit)
  if ds.isEmpty then none
  else if ds.length > 1 ∧ ds.headD '0' = '0' then none
  else
    let n : Nat := ds.foldl (fun a c => a * 10 + (c.toNat - 48)) 0
    some (Json.num (if neg then -(n : Int) else (n : Int)), rest)

mutual

def parseVal : Nat → List Char → Option (Json × List Char)
  | 0, _ => none
  | f + 1, cs =>
    match skipWs cs with
    | 'n' :: 'u' :: 'l' :: 'l' :: rest => some (Json.null, rest)
    | 't' :: 'r' :: 'u' :: 'e' :: rest => some (Json.bool true, rest)
    | 'f' :: 'a' :: 'l' :: 's' :: 'e' :: rest => some (Json.bool false, rest)
    | '"' :: rest =>
      match parseStringBody f rest with
      | some (s, r) => some (Json.str s, r)
      | none => none
    | '[' :: rest =>
      (match skipWs rest with
       | ']' :: r2 => some (Json.arr [], r2)
       | _ => parseElems f rest [])
    | '\x7b' :: rest =>
      (match skipWs rest with
       | '\x7d' :: r2 => some (Json.obj [], r2)
       | _ => parseMembers f rest [])
    | c :: rest =>
      if c = '-' ∨ c.isDigit then parseNum (c :: rest) else none
    | [] => none

def parseElems : Nat → List Char → List Json → Option (Json × List Char)
  | 0, _, _ => none
  | f + 1, cs, acc =>
    match parseVal f cs with
    | none => none
    | some (v, rest) =>
      match skipWs rest with
      | ',' :: r2 => parseElems f r2 (acc ++ [v])
      | ']' :: r2 => some (Json.arr (acc ++ [v]), r2)
      | _ => none

def parseMembers : Nat → List Char → List (String × Json) → Option (Json × List Char)
  | 0, _, _ => none
  | f + 1, cs, acc =>
    match skipWs cs with
    | '"' :: rest =>
      match parseStringBody f rest with
      | none => none
      | some (k, r1) =>
        match skipWs r1 with
        | ':' :: r2 =>
          match parseVal f r2 with
          | none => none
          | some (v, r3) =>
            let acc2 := assocSet acc k v
            (match skipWs r3 with
             | ',' :: r4 => parseMembers f r4 acc2
             | '\x7d' :: r4 => some (Json.obj acc2, r4)
             | _ => none)
        | _ => none
    | _ => none

def parseStringBody : Nat → List Char → Option (String × List Char)
  | 0, _ => none
  | f + 1, cs =>
    match cs with
    | [] => none
    | '"' :: rest => some ("", rest)
    | '\\' :: 'u' :: h1 :: h2 :: h3 :: h4 :: rest =>
      (match hexVal h1, hexVal h2, hexVal h3, hexVal h4 with
       | some a, some b, some c, some d =>
         match parseStringBody f rest with
         | some (s, r) =>
           some (String.mk (Char.ofNat (((a * 16 + b) * 16 + c) * 16 + d) :: s.data), r)
         | none => none
       | _, _, _, _ => none)
    | '\\' :: e :: rest =>
      (match escMap e with
       | some c =>
         match parseStringBody f rest with
         | some (s, r) => some (String.mk (c :: s.data), r)
         | none => none
       | none => none)
    | c :: rest =>
      if c.toNat < 32 then none
      else
        match parseStringBody f rest with
        | some (s, r) => some (String.mk (c :: s.data), r)
        | none => none

end

def json_loads (t : String) : Option Json :=
  match parseVal (2 * t.data.length + 8) t.data with
  | none => none
  | some (v, rest) => if (skipWs rest).isEmpty then some v else none

def scanJson (acc : List Char) (depth : Int) : List Char → Option Json
  | [] => none
  | c :: rest =>
    let d := if c = '\x7b' then depth + 1 else depth
    if c = '\x7d' then
      if d - 1 = 0 then json_loads (String.mk (acc ++ [c]))
      else scanJson (acc ++ [c]) (d - 1) rest
    else scanJson (acc ++ [c]) d rest

def extract_json_from_output (text : String) : Option Json :=
  match text.data.dropWhile (fun c => c ≠ '\x7b') with
  | [] => none
  | sub => scanJson [] 0 sub


/-- Modelled from the spec (§4.4): the first syntactically complete
brace-delimited slice — from the first opening brace to the first point
where the braces balance back to zero net depth.  Same scan as
`scanJson`, but returning the slice instead of parsing it. -/
def balancedPrefix (acc : List Char) (depth : Int) : List Char → Option String
  | [] => none
  | c :: rest =>
    let d := if c = '\x7b' then depth + 1 else depth
    if c = '\x7d' then
      if d - 1 = 0 then some (String.mk (acc ++ [c]))
      else balancedPrefix (acc ++ [c]) (d - 1) rest
    else balancedPrefix (acc ++ [c]) d rest

/-- Modelled from the spec (§4.4): the first balanced brace-delimited
slice of the raw output, ignoring surrounding prose. -/
def firstBalancedSlice (text : String) : Option String :=
  match text.data.dropWhile (fun c => c ≠ '\x7b') with
  | [] => none
  | sub => balancedPrefix [] 0 sub

/- ---------------------------------------------------------------- -/
/- ask_model_for_plan (organize.py lines 267-289)                     -/
/- ---------------------------------------------------------------- -/

/-- The outcome of the `opencode run` subprocess call:
`none` models `subprocess.TimeoutExpired`, `some out` a completed call
with standard output `out`. -/
def OpencodeResponse : Type := Option String

/-- `ask_model_for_plan` after the subprocess call (the prompt build is
irrelevant to the result shape): returns `(plan, error)` — exactly one is
`none`. -/
def ask_model_for_plan (response : Option String) : Option Json × Option String :=
  match response with
  | none => (none, some "opencode timed out")
  | some out =>
    match extract_json_from_output out with
    | none => (none, some "no json in model output")
    | some plan => (some plan, none)

/- ---------------------------------------------------------------- -/
/- opencode session enrichment (organize.py lines 88-166)            -/
/- ---------------------------------------------------------------- -/

/-- The outcome of the `otop sessions` subprocess call.
`noExec` models `FileNotFoundError` (executable absent), `timedOut`
models `subprocess.TimeoutExpired`, `exited rc out` a completed call. -/
inductive OtopResult where
  | noExec : OtopResult
  | timedOut : OtopResult
  | exited (returncode : Int) (stdout : String) : OtopResult

/-- `query_opencode_sessions` from `organize.py`: empty list on missing
executable, timeout, non-zero exit, or undecodable output; otherwise
whatever JSON `json.loads` yields (the code does not check that it is a
list). -/
def query_opencode_sessions (r : OtopResult) : Json :=
  match r with
  | .noExec => Json.arr []
  | .timedOut => Json.arr []
  | .exited rc out =>
    if rc ≠ 0 then Json.arr []
    else
      match json_loads out with
      | none => Json.arr []
      | some j => j

/-- The nested `"session"` object of an otop record, restricted to the
keys the formatter reads (`.get` with defaults); `none` fields are absent
keys.  A record whose `"session"` key is missing or maps to a falsy
(empty) dict is modelled as `sessionData = none`. -/
structure OcSessionData where
  title : Option String
  status : Option String
  message_count : Option Int
  model : Option String
deriving DecidableEq, Repr

/-- One record of the `otop sessions` list, restricted to the keys
`build_opencode_context` reads. -/
structure OcRecord where
  tmux_pane : Option String
  sessionData : Option OcSessionData
deriving DecidableEq, Repr

/-- Python whitespace stripped by `int()`. -/
def isPySpace (c : Char) : Bool :=
  c = ' ' ∨ c = '\t' ∨ c = '\n' ∨ c = '\r' ∨ c = Char.ofNat 11 ∨ c = Char.ofNat 12

/-- Model of Python `int(s)`: strip whitespace, optional sign, decimal
digits.  (Python additionally allows underscore digit separators; no
claim depends on them.) -/
def pyInt (s : String) : Option Int :=
  let core := ((s.data.dropWhile isPySpace).reverse.dropWhile isPySpace).reverse
  let digits : List Char → Option Int := fun ds =>
    if ds.isEmpty ∨ ds.any (fun c => !c.isDigit) then none
    else some ((ds.foldl (fun a c => a * 10 + (c.toNat - 48)) 0 : Nat) : Int)
  match core with
  | '-' :: ds => (digits ds).map (fun n => -n)
  | '+' :: ds => digits ds
  | ds => digits ds

/-- `s.split(sep, 1)` when `sep` occurs: the part before the first `sep`
and everything after it; `none` when `sep` does not occur (mirrors the
`":" not in pane_target` guard). -/
def splitFirst (sep : Char) : List Char → Option (List Char × List Char)
  | [] => none
  | c :: rest =>
    if c = sep then some ([], rest)
    else
      match splitFirst sep rest with
      | none => none
      | some p => some (c :: p.1, p.2)

/-- Python dict assignment `d[k] = v` on an insertion-ordered dict:
overwrite in place if the key exists, else append. -/
def dictSet (l : List (Int × OcSessionData)) (k : Int) (v : OcSessionData) :
    List (Int × OcSessionData) :=
  if l.any (fun p => p.1 = k) then l.map (fun p => if p.1 = k then (k, v) else p)
  else l ++ [(k, v)]

/-- One iteration of the `window_sessions` loop in
`build_opencode_context`: require a nonempty pane target containing
`":"`, an exactly matching session name, a parseable window-index prefix
(before any `"."`), and truthy session data; otherwise skip the record
(`continue`). -/
def ocStep (session_name : String) (acc : List (Int × OcSessionData)) (r : OcRecord) :
    List (Int × OcSessionData) :=
  match r.tmux_pane with
  | none => acc
  | some pt =>
    if pt = "" then acc
    else
      match splitFirst ':' pt.data with
      | none => acc
      | some (ts, rest) =>
        if String.mk ts ≠ session_name then acc
        else
          match pyInt (String.mk (rest.takeWhile (fun c => c ≠ '.'))) with
          | none => acc
          | some widx =>
            match r.sessionData with
            | none => acc
            | some sd => dictSet acc widx sd

/-- The `window_sessions` dict built by `build_opencode_context`. -/
def windowSessionsDict (session_name : String) (recs : List OcRecord) :
    List (Int × OcSessionData) :=
  recs.foldl (ocStep session_name) []

/-- One line of the enrichment block:
`'window %(idx)d has opencode session: "%(title)s" (%(status)s, %(msgs)d
messages, model: %(model)s)'` with the `.get` defaults. -/
def ocLine (p : Int × OcSessionData) : String :=
  "window " ++ toString p.1 ++ " has opencode session: \"" ++
    p.2.title.getD "untitled" ++ "\" (" ++ p.2.status.getD "unknown" ++ ", " ++
    toString (p.2.message_count.getD 0) ++ " messages, model: " ++
    p.2.model.getD "?" ++ ")"

/-- `build_opencode_context` from `organize.py`.  `session_name` is the
response of the `display-message -t session_id -p "#S"` tmux call (the
opaque command runner); the `context` argument is otherwise only the
source of that session id. -/
def build_opencode_context (session_name : String) (recs : List OcRecord)
    (_context : SessionContext) : String :=
  if recs.isEmpty then ""
  else
    let ws := windowSessionsDict session_name recs
    if ws.isEmpty then ""
    else
      String.intercalate "\n"
        ((List.insertionSort (fun a b => a.1 ≤ b.1) ws).map ocLine)

/-- The per-record matching condition of `windowSessionsDict`, as one
predicate: nonempty pane target with a `":"`, exact session-name match,
parseable window-index prefix, truthy session data. -/
def recordMatches (session_name : String) (r : OcRecord) : Bool :=
  match r.tmux_pane with
  | none => false
  | some pt =>
    if pt = "" then false
    else
      match splitFirst ':' pt.data with
      | none => false
      | some (ts, rest) =>
        if String.mk ts ≠ session_name then false
        else
          (pyInt (String.mk (rest.takeWhile (fun c => c ≠ '.')))).isSome &&
            r.sessionData.isSome

/- ---------------------------------------------------------------- -/
/- apply_organization_plan (organize.py lines 319-346)               -/
/- ---------------------------------------------------------------- -/

/-- The tmux commands `apply_organization_plan` issues, with the session
qualifier of the `-t`/`-s` arguments kept as a field.
`moveById` is `move-window -s <window id> -t <sid>:<idx>`;
`moveByIdx` is `move-window -s <sid>:<src> -t <sid>:<dst>`. -/
inductive TmuxCmd where
  | renameWindow (id : String) (name : String) : TmuxCmd
  | moveById (id : String) (sid : String) (target : Int) : TmuxCmd
  | moveByIdx (sid : String) (src : Int) (target : Int) : TmuxCmd
  | renameSession (sid : String) (name : String) : TmuxCmd
deriving DecidableEq, Repr

/-- `apply_organization_plan` as the command trace it issues: rename all
windows; move each to temporary index `900 + i`; move each from `900 + i`
to its planned index; rename the session. -/
def apply_organization_plan (session_id : String) (sessionName : String)
    (ws : List WindowPlan) : List TmuxCmd :=
  (ws.map (fun w => TmuxCmd.renameWindow w.id w.name)) ++
  (ws.enum.map (fun p => TmuxCmd.moveById p.2.id session_id (900 + (p.1 : Int)))) ++
  (ws.enum.map (fun p => TmuxCmd.moveByIdx session_id (900 + (p.1 : Int)) p.2.index)) ++
  [TmuxCmd.renameSession session_id sessionName]

/-- Window occupancy of the live session: each window's stable id paired
with its current index. -/
abbrev OccState : Type := List (String × Int)

/-- The occupancy a `SessionContext` snapshot describes. -/
def initOcc (context : SessionContext) : OccState :=
  context.windows.map (fun w => (w.id, w.index))

/-- A command's target index is currently occupied by a window that has
not yet vacated it: for a move by id, any *other* window sits at the
target; for a move by source index, the move is not a self-move and some
window sits at the target.  Renames never conflict. -/
def cmdBlocked (s : OccState) : TmuxCmd → Bool
  | .renameWindow _ _ => false
  | .renameSession _ _ => false
  | .moveById id _ t => s.any (fun p => p.1 ≠ id ∧ p.2 = t)
  | .moveByIdx _ src t => decide (t ≠ src) && s.any (fun p => p.2 = t)

/-- Effect of a command on occupancy: a move by id re-indexes that window;
a move by source index re-indexes whichever window currently holds the
source index; renames change nothing. -/
def applyCmd (s : OccState) : TmuxCmd → OccState
  | .renameWindow _ _ => s
  | .renameSession _ _ => s
  | .moveById id _ t => s.map (fun p => if p.1 = id then (p.1, t) else p)
  | .moveByIdx _ src t => s.map (fun p => if p.2 = src then (p.1, t) else p)

/-- Run a command trace over an occupancy state. -/
def runCmds (s : OccState) (cs : List TmuxCmd) : OccState :=
  cs.foldl applyCmd s

/-- No command of the trace ever targets an index occupied by a window
that has not yet vacated it. -/
def cmdsOk (s : OccState) : List TmuxCmd → Bool
  | [] => true
  | c :: cs => !cmdBlocked s c && cmdsOk (applyCmd s c) cs

/- ---------------------------------------------------------------- -/
/- main (organize.py lines 349-394), the post-fork child              -/
/- ---------------------------------------------------------------- -/

/-- Observable effects of the organize run after the fork. -/
inductive Effect where
  | setStatus (msg : String) : Effect
  | exitFail : Effect
  | cacheWrite (key : String) (plan : RawPlan) : Effect
  | applyPlan (plan : RawPlan) : Effect
  | clearStatus : Effect
deriving DecidableEq, Repr

/-- The post-fork part of `main` (organize.py lines 370-394) as the
effect trace it produces.  `cached` is what `read_cached_plan` returned;
`modelResult` is the `(plan, error)` outcome `ask_model_for_plan` would
produce if called (exactly one side, per its contract), already bridged
to a `RawPlan`. -/
def mainChild (context : SessionContext) (opencode_context : String)
    (cached : Option RawPlan) (modelResult : RawPlan ⊕ String) : List Effect :=
  let cache_key := build_cache_key context opencode_context
  let is_cached := cached.isSome
  let chosen : RawPlan ⊕ String :=
    match cached with
    | some p => if p.falsy then modelResult else Sum.inl p
    | none => modelResult
  match chosen with
  | Sum.inr err => [Effect.setStatus err, Effect.exitFail]
  | Sum.inl plan =>
    match validate_plan plan context with
    | some verr => [Effect.setStatus verr, Effect.exitFail]
    | none =>
      (if is_cached then [] else [Effect.cacheWrite cache_key plan]) ++
        [Effect.applyPlan plan, Effect.clearStatus]

/- ---------------------------------------------------------------- -/
/- Shared helper lemmas                                              -/
/- ---------------------------------------------------------------- -/

theorem nodup_iff_dedup_length {α : Type} [DecidableEq α] (l : List α) :
    l.dedup.length = l.length ↔ l.Nodup := by
  constructor
  · intro h
    have hs := l.dedup_sublist
    have he := hs.eq_of_length h
    exact he ▸ l.nodup_dedup
  · intro h
    rw [List.dedup_eq_self.mpr h]

theorem setEqStr_iff (l1 l2 : List String) :
    setEqStr l1 l2 = true ↔ (∀ x, x ∈ l1 ↔ x ∈ l2) := by
  simp only [setEqStr, Bool.and_eq_true, List.all_eq_true, List.elem_iff]
  constructor
  · intro h x
    exact ⟨fun hx => h.1 x hx, fun hx => h.2 x hx⟩
  · intro h
    exact ⟨fun x hx => (h x).mp hx, fun x hx => (h x).mpr hx⟩

theorem charListLe_total : ∀ as bs : List Char,
    charListLe as bs = true ∨ charListLe bs as = true := by
  intro as
  induction as with
  | nil => intro bs; left; rfl
  | cons a at' ih =>
    intro bs
    cases bs with
    | nil => right; rfl
    | cons b bt =>
      by_cases hab : a.toNat < b.toNat
      · left; simp [charListLe, hab]
      · by_cases hba : b.toNat < a.toNat
        · right; simp [charListLe, hba]
        · rcases ih bt with h | h
          · left; simp [charListLe, hab, hba, h]
          · right; simp [charListLe, hab, hba, h]

theorem charListLe_trans : ∀ as bs cs : List Char,
    charListLe as bs = true → charListLe bs cs = true → charListLe as cs = true := by
  intro as
  induction as with
  | nil => intro bs cs _ _; rfl
  | cons a at' ih =>
    intro bs cs h1 h2
    cases bs with
    | nil => simp [charListLe] at h1
    | cons b bt =>
      cases cs with
      | nil => simp [charListLe] at h2
      | cons c ct =>
        simp only [charListLe] at h1 h2 ⊢
        by_cases hab : a.toNat < b.toNat
        · by_cases hbc : b.toNat < c.toNat
          · simp [show a.toNat < c.toNat by omega]
          · by_cases hcb : c.toNat < b.toNat
            · simp [hbc, hcb] at h2
            · simp [show a.toNat < c.toNat by omega]
        · by_cases hba : b.toNat < a.toNat
          · simp [hab, hba] at h1
          · simp only [if_neg hab, if_neg hba] at h1
            by_cases hbc : b.toNat < c.toNat
            · simp [show a.toNat < c.toNat by omega]
            · by_cases hcb : c.toNat < b.toNat
              · simp [hbc, hcb] at h2
              · simp only [if_neg hbc, if_neg hcb] at h2
                rw [if_neg (show ¬ a.toNat < c.toNat by omega),
                  if_neg (show ¬ c.toNat < a.toNat by omega)]
                exact ih bt ct h1 h2

theorem charListLe_antisymm : ∀ as bs : List Char,
    charListLe as bs = true → charListLe bs as = true → as = bs := by
  intro as
  induction as with
  | nil =>
    intro bs _ h2
    cases bs with
    | nil => rfl
    | cons b bt => simp [charListLe] at h2
  | cons a at' ih =>
    intro bs h1 h2
    cases bs with
    | nil => simp [charListLe] at h1
    | cons b bt =>
      simp only [charListLe] at h1 h2
      by_cases hab : a.toNat < b.toNat
      · rw [if_neg (show ¬ b.toNat < a.toNat by omega), if_pos hab] at h2
        exact absurd h2 (by simp)
      · by_cases hba : b.toNat < a.toNat
        · rw [if_neg hab, if_pos hba] at h1
          exact absurd h1 (by simp)
        · have hc : a = b := Char.ext (UInt32.ext (show a.toNat = b.toNat by omega))
          subst hc
          simp only [if_neg hab] at h1 h2
          rw [ih bt h1 h2]

theorem strLeB_antisymm {a b : String} (h1 : strLeB a b = true) (h2 : strLeB b a = true) :
    a = b := by
  cases a with
  | mk ad =>
    cases b with
    | mk bd =>
      have := charListLe_antisymm ad bd h1 h2
      rw [this]

theorem insertionSortStr_perm_congr {l1 l2 : List String} (h : l1.Perm l2) :
    List.insertionSort (fun a b => strLeB a b = true) l1 =
      List.insertionSort (fun a b => strLeB a b = true) l2 := by
  letI : IsAntisymm String (fun a b => strLeB a b = true) :=
    ⟨fun a b h1 h2 => strLeB_antisymm h1 h2⟩
  letI : IsTotal String (fun a b => strLeB a b = true) :=
    ⟨fun a b => charListLe_total a.data b.data⟩
  letI : IsTrans String (fun a b => strLeB a b = true) :=
    ⟨fun a b c h1 h2 => charListLe_trans a.data b.data c.data h1 h2⟩
  exact List.eq_of_perm_of_sorted
    (((List.perm_insertionSort _ l1).trans h).trans (List.perm_insertionSort _ l2).symm)
    (List.sorted_insertionSort _ l1) (List.sorted_insertionSort _ l2)

/- ---------------------------------------------------------------- -/
/- Claim theorems                                                    -/
/- ---------------------------------------------------------------- -/

/-- C9: a candidate plan whose `windows` list holds two entries with the
same window id `"@1"` (at distinct indices 0 and 1) passes validation
against a two-window session, although the plan has three entries and the
session two windows — validation compares id sets, not multiplicity. -/
theorem c9_duplicate_id_entries_pass_validation :
    validate_plan
        ⟨some "proj", some [⟨"@1", "n1", 0⟩, ⟨"@1", "n2", 1⟩, ⟨"@2", "n3", 2⟩], false⟩
        ⟨"$1", "/home/u/proj", [⟨"@1", 0, "a", []⟩, ⟨"@2", 1, "b", []⟩]⟩ = none ∧
      ¬ (([⟨"@1", "n1", 0⟩, ⟨"@1", "n2", 1⟩, ⟨"@2", "n3", 2⟩] : List WindowPlan).map
          (fun w => w.id)).Nodup ∧
      ([⟨"@1", "n1", 0⟩, ⟨"@1", "n2", 1⟩, ⟨"@2", "n3", 2⟩] : List WindowPlan).length = 3 ∧
      ([⟨"@1", 0, "a", []⟩, ⟨"@2", 1, "b", []⟩] : List WindowContext).length = 2 := by
  refine ⟨by decide, by decide, rfl, rfl⟩

/-- C10: the input `{"a":"}"}` is exactly one well-formed JSON object
whose string value is `"}"`, yet extraction returns nothing: brace depth
is counted over every brace character regardless of string literals, so
the first zero-depth prefix `{"a":"}` fails to parse and the scan gives
up rather than continuing. -/
theorem c10_brace_in_string_value_defeats_extraction :
    json_loads "\x7b\"a\":\"\x7d\"\x7d" = some (Json.obj [("a", Json.str "\x7d")]) ∧
      extract_json_from_output "\x7b\"a\":\"\x7d\"\x7d" = none :=
  ⟨rfl, rfl⟩

/-- C8: the enrichment query returns the empty list on a missing
executable, a timeout, a non-zero exit, and non-JSON output — but output
that decodes as JSON without being a record list (here `"3"`) is returned
as-is, not normalized to the empty list, contradicting the function's own
`-> list[dict]` annotation and docstring. -/
theorem c8_enrichment_failure_modes :
    query_opencode_sessions OtopResult.noExec = Json.arr [] ∧
      query_opencode_sessions OtopResult.timedOut = Json.arr [] ∧
      query_opencode_sessions (OtopResult.exited 1 "[]") = Json.arr [] ∧
      query_opencode_sessions (OtopResult.exited 0 "not json") = Json.arr [] ∧
      query_opencode_sessions (OtopResult.exited 0 "3") = Json.num 3 ∧
      Json.num 3 ≠ Json.arr [] :=
  ⟨rfl, rfl, rfl, rfl, rfl, fun h => Json.noConfusion h⟩

theorem sortedSet_eq_nil_iff (l : List String) : sortedSet l = [] ↔ l = [] := by
  unfold sortedSet
  constructor
  · intro h
    have hp := List.perm_insertionSort (fun a b => strLeB a b = true) l.dedup
    rw [h] at hp
    exact (List.dedup_eq_nil l).mp (List.Perm.eq_nil hp.symm)
  · intro h
    subst h
    rfl

theorem appendLit_missing (x : String) :
    "window id mismatch: " ++ ("missing " ++ x) = "window id mismatch: missing " ++ x := by
  rw [← String.append_assoc]
  rw [show "window id mismatch: " ++ "missing " = "window id mismatch: missing " from rfl]

theorem appendLit_extra (x : String) :
    "window id mismatch: " ++ ("extra " ++ x) = "window id mismatch: extra " ++ x := by
  rw [← String.append_assoc]
  rw [show "window id mismatch: " ++ "extra " = "window id mismatch: extra " from rfl]

theorem intercalate_singleton (s a : String) : String.intercalate s [a] = a := by
  simp [String.intercalate, String.intercalate.go]

theorem intercalate_pair (s a b : String) : String.intercalate s [a, b] = a ++ s ++ b := by
  simp [String.intercalate, String.intercalate.go]

/-- C2: for a candidate plan carrying both top-level keys, validation
succeeds iff the plan's window-id set equals the context's window-id set
and the plan indices are pairwise distinct; and on failure the diagnostic
names the cause — `"duplicate indices"` when only uniqueness fails,
`"window id mismatch: missing …"` when some live id is absent from the
plan, and `"window id mismatch: extra …"` (listing the sorted extra ids)
when the plan only has ids the session lacks. -/
theorem c2_validator_characterization (plan : RawPlan) (context : SessionContext)
    (sname : String) (ws : List WindowPlan)
    (hs : plan.session = some sname) (hw : plan.windows = some ws) :
    (validate_plan plan context = none ↔
      ((∀ x, x ∈ context.windows.map (fun w => w.id) ↔ x ∈ ws.map (fun w => w.id)) ∧
        (ws.map (fun w => w.index)).Nodup)) ∧
    ((∀ x, x ∈ context.windows.map (fun w => w.id) ↔ x ∈ ws.map (fun w => w.id)) →
      ¬ (ws.map (fun w => w.index)).Nodup →
      validate_plan plan context = some "duplicate indices") ∧
    ((∃ m, m ∈ context.windows.map (fun w => w.id) ∧ m ∉ ws.map (fun w => w.id)) →
      ∃ d, validate_plan plan context = some ("window id mismatch: missing " ++ d)) ∧
    ((∀ m ∈ context.windows.map (fun w => w.id), m ∈ ws.map (fun w => w.id)) →
      (∃ e, e ∈ ws.map (fun w => w.id) ∧ e ∉ context.windows.map (fun w => w.id)) →
      validate_plan plan context =
        some ("window id mismatch: extra " ++
          String.intercalate ","
            (sortedSet ((ws.map (fun w => w.id)).filter
              (fun i => !(context.windows.map (fun w => w.id)).contains i))))) := by
  simp only [validate_plan, hs, hw]
  refine ⟨?_, ?_, ?_, ?_⟩
  · by_cases hse :
        setEqStr (context.windows.map (fun w => w.id)) (ws.map (fun w => w.id)) = true
    · simp only [hse, if_true]
      by_cases hnd :
          (ws.map (fun w => w.index)).dedup.length = (ws.map (fun w => w.index)).length
      · simp only [hnd, if_true]
        simp only [true_iff]
        exact ⟨(setEqStr_iff _ _).mp hse, (nodup_iff_dedup_length _).mp hnd⟩
      · simp only [hnd, if_false]
        constructor
        · intro h
          exact absurd h (by simp)
        · intro h
          exact absurd ((nodup_iff_dedup_length _).mpr h.2) hnd
    · simp only [hse, if_false]
      constructor
      · intro h
        exact absurd h (by simp)
      · intro h
        exact absurd ((setEqStr_iff _ _).mpr h.1) hse
  · intro hiff hnodup
    have hse := (setEqStr_iff _ _).mpr hiff
    have hnd : ¬ (ws.map (fun w => w.index)).dedup.length =
        (ws.map (fun w => w.index)).length :=
      fun h => hnodup ((nodup_iff_dedup_length _).mp h)
    simp only [hse, if_true, hnd, if_false]
  · rintro ⟨m, hm, hmn⟩
    have hse : ¬ setEqStr (context.windows.map (fun w => w.id))
        (ws.map (fun w => w.id)) = true :=
      fun h => hmn (((setEqStr_iff _ _).mp h m).mp hm)
    simp only [hse, if_false]
    have hmem : m ∈ (context.windows.map (fun w => w.id)).filter
        (fun i => !(ws.map (fun w => w.id)).contains i) := by
      rw [List.mem_filter]
      refine ⟨hm, ?_⟩
      simp only [Bool.not_eq_true', ← Bool.not_eq_true]
      intro hc
      exact hmn (List.elem_iff.mp hc)
    have hmiss : sortedSet ((context.windows.map (fun w => w.id)).filter
        (fun i => !(ws.map (fun w => w.id)).contains i)) ≠ [] := by
      intro hnil
      rw [sortedSet_eq_nil_iff] at hnil
      rw [hnil] at hmem
      exact absurd hmem (List.not_mem_nil m)
    have hmissE : (sortedSet ((context.windows.map (fun w => w.id)).filter
        (fun i => !(ws.map (fun w => w.id)).contains i))).isEmpty = false := by
      rw [List.isEmpty_eq_false_iff_exists_mem]
      rcases List.exists_mem_of_ne_nil _ hmiss with ⟨y, hy⟩
      exact ⟨y, hy⟩
    rw [hmissE]
    by_cases hex : (sortedSet ((ws.map (fun w => w.id)).filter
        (fun i => !(context.windows.map (fun w => w.id)).contains i))).isEmpty = true
    · rw [hex]
      simp only [if_false, if_true, Bool.false_eq_true, List.append_nil]
      refine ⟨String.intercalate ","
        (sortedSet ((context.windows.map (fun w => w.id)).filter
          (fun i => !(ws.map (fun w => w.id)).contains i))), ?_⟩
      rw [intercalate_singleton, appendLit_missing]
    · rw [Bool.not_eq_true] at hex
      rw [hex]
      simp only [Bool.false_eq_true, if_false]
      refine ⟨String.intercalate ","
          (sortedSet ((context.windows.map (fun w => w.id)).filter
            (fun i => !(ws.map (fun w => w.id)).contains i))) ++ "; " ++
          ("extra " ++ String.intercalate ","
            (sortedSet ((ws.map (fun w => w.id)).filter
              (fun i => !(context.windows.map (fun w => w.id)).contains i)))), ?_⟩
      rw [List.singleton_append, intercalate_pair]
      rw [String.append_assoc, String.append_assoc, appendLit_missing]
      simp [String.append_assoc]
  · rintro hsub ⟨e, he, hen⟩
    have hse : ¬ setEqStr (context.windows.map (fun w => w.id))
        (ws.map (fun w => w.id)) = true :=
      fun h => hen (((setEqStr_iff _ _).mp h e).mpr he)
    simp only [hse, if_false]
    have hmnil : (context.windows.map (fun w => w.id)).filter
        (fun i => !(ws.map (fun w => w.id)).contains i) = [] := by
      rw [List.filter_eq_nil_iff]
      intro x hx
      simp only [Bool.not_eq_true', ← Bool.not_eq_true, Decidable.not_not]
      exact List.elem_iff.mpr (hsub x hx)
    have hmissE : (sortedSet ((context.windows.map (fun w => w.id)).filter
        (fun i => !(ws.map (fun w => w.id)).contains i))).isEmpty = true := by
      rw [hmnil]
      rfl
    rw [hmissE]
    have hemem : e ∈ (ws.map (fun w => w.id)).filter
        (fun i => !(context.windows.map (fun w => w.id)).contains i) := by
      rw [List.mem_filter]
      refine ⟨he, ?_⟩
      simp only [Bool.not_eq_true', ← Bool.not_eq_true]
      intro hc
      exact hen (List.elem_iff.mp hc)
    have hexE : (sortedSet ((ws.map (fun w => w.id)).filter
        (fun i => !(context.windows.map (fun w => w.id)).contains i))).isEmpty = false := by
      rw [List.isEmpty_eq_false_iff_exists_mem]
      have hne : sortedSet ((ws.map (fun w => w.id)).filter
          (fun i => !(context.windows.map (fun w => w.id)).contains i)) ≠ [] := by
        intro hnil
        rw [sortedSet_eq_nil_iff] at hnil
        rw [hnil] at hemem
        exact absurd hemem (List.not_mem_nil e)
      rcases List.exists_mem_of_ne_nil _ hne with ⟨y, hy⟩
      exact ⟨y, hy⟩
    rw [hexE]
    simp only [if_true, if_false, Bool.false_eq_true, List.nil_append]
    rw [intercalate_singleton, appendLit_extra]

/-- Witness for C2 at a concrete one-window session and matching plan. -/
theorem c2_validator_characterization_witness :
    validate_plan ⟨some "p", some [⟨"@1", "a", 0⟩], false⟩
      ⟨"$1", "/", [⟨"@1", 0, "x", []⟩]⟩ = none :=
  (c2_validator_characterization _ _ "p" [⟨"@1", "a", 0⟩] rfl rfl).1.mpr
    ⟨fun x => Iff.rfl, by decide⟩

theorem ocStep_skip (session_name : String) (acc : List (Int × OcSessionData))
    (r : OcRecord) (h : recordMatches session_name r = false) :
    ocStep session_name acc r = acc := by
  cases hp : r.tmux_pane with
  | none => simp [ocStep, hp]
  | some pt =>
    simp only [recordMatches, hp] at h
    simp only [ocStep, hp]
    by_cases hpt : pt = ""
    · simp [hpt]
    · simp only [if_neg hpt] at h ⊢
      cases hsp : splitFirst ':' pt.data with
      | none => simp [hsp]
      | some p =>
        rcases p with ⟨ts, rest⟩
        simp only [hsp] at h ⊢
        by_cases hts : String.mk ts ≠ session_name
        · simp only [if_pos hts]
        · simp only [if_neg hts] at h ⊢
          cases hpi : pyInt (String.mk (rest.takeWhile (fun c => c ≠ '.'))) with
          | none => simp [hpi]
          | some widx =>
            simp only [hpi] at h
            cases hsd : r.sessionData with
            | none => simp [hsd]
            | some sd =>
              simp only [hsd] at h
              simp at h

theorem windowSessionsDict_eq_nil (session_name : String) (recs : List OcRecord)
    (h : ∀ r ∈ recs, recordMatches session_name r = false) :
    windowSessionsDict session_name recs = [] := by
  unfold windowSessionsDict
  have haux : ∀ (l : List OcRecord) (acc : List (Int × OcSessionData)),
      (∀ r ∈ l, recordMatches session_name r = false) →
      l.foldl (ocStep session_name) acc = acc := by
    intro l
    induction l with
    | nil => intro acc _; rfl
    | cons r rs ih =>
      intro acc hall
      rw [List.foldl_cons, ocStep_skip session_name acc r (hall r (by simp))]
      exact ih acc (fun x hx => hall x (by simp [hx]))
  exact haux recs [] h

/-- C7 counterexample: a record whose pane target names window index 99 of
the matching session is enriched even though the context has no window
with index 99 — the enrichment result is not empty, refuting the claim
that matching a *window of the context* is required. -/
theorem c7_counterexample :
    (([⟨"@1", 0, "w", []⟩] : List WindowContext).all (fun w => w.index ≠ 99)) = true ∧
      build_opencode_context "work"
          [⟨some "work:99.0", some ⟨some "t", some "busy", some 2, some "m"⟩⟩]
          ⟨"$1", "/p", [⟨"@1", 0, "w", []⟩]⟩ ≠ "" ∧
      build_opencode_context "work"
          [⟨some "work:99.0", some ⟨some "t", some "busy", some 2, some "m"⟩⟩]
          ⟨"$1", "/p", [⟨"@1", 0, "w", []⟩]⟩ =
        "window 99 has opencode session: \"t\" (busy, 2 messages, model: m)" := by
  refine ⟨rfl, by decide, by decide⟩

/-- C7 (amended): if no record matches — exact session-name equality,
a parseable window-index prefix before any `"."`, and truthy session
data, with unparseable records skipped rather than errored, and
regardless of whether the parsed index belongs to any window of the
context — the enrichment result is the empty string. -/
theorem c7_no_matching_record_empty (session_name : String) (recs : List OcRecord)
    (context : SessionContext)
    (h : ∀ r ∈ recs, recordMatches session_name r = false) :
    build_opencode_context session_name recs context = "" := by
  cases recs with
  | nil => rfl
  | cons r rs =>
    have hd := windowSessionsDict_eq_nil session_name (r :: rs) h
    unfold build_opencode_context
    rw [hd]
    rfl

/-- Witness for C7 (amended): a record for a different session yields no
enrichment. -/
theorem c7_no_matching_record_empty_witness :
    build_opencode_context "work" [⟨some "other:1.0", some ⟨none, none, none, none⟩⟩]
      ⟨"$1", "/p", []⟩ = "" :=
  c7_no_matching_record_empty "work" _ _ (by decide)

/-- C6: in every organize run, a plan that fails validation is neither
applied nor written to the cache, and a cache write only ever stores a
plan that passed validation, only under the fingerprint key, and only
when nothing was read from cache (`is_cached` false). -/
theorem c6_invalid_never_applied_or_cached (context : SessionContext)
    (opencode_context : String) (cached : Option RawPlan)
    (modelResult : RawPlan ⊕ String) :
    (∀ p, Effect.applyPlan p ∈ mainChild context opencode_context cached modelResult →
      validate_plan p context = none) ∧
    (∀ k p, Effect.cacheWrite k p ∈ mainChild context opencode_context cached modelResult →
      validate_plan p context = none ∧ cached = none ∧
        k = build_cache_key context opencode_context) := by
  rcases cached with _ | cp
  · rcases modelResult with mp | merr
    · cases hv : validate_plan mp context with
      | none =>
        constructor
        · intro p hp
          simp [mainChild, hv] at hp
          rw [hp]
          exact hv
        · intro k p hp
          simp [mainChild, hv] at hp
          rcases hp with ⟨hk, hp'⟩
          rw [hp']
          exact ⟨hv, rfl, hk⟩
      | some verr =>
        constructor
        · intro p hp
          simp [mainChild, hv] at hp
        · intro k p hp
          simp [mainChild, hv] at hp
    · constructor
      · intro p hp
        simp [mainChild] at hp
      · intro k p hp
        simp [mainChild] at hp
  · by_cases hf : cp.falsy = true
    · rcases modelResult with mp | merr
      · cases hv : validate_plan mp context with
        | none =>
          constructor
          · intro p hp
            simp [mainChild, hf, hv] at hp
            rw [hp]
            exact hv
          · intro k p hp
            simp [mainChild, hf, hv] at hp
        | some verr =>
          constructor
          · intro p hp
            simp [mainChild, hf, hv] at hp
          · intro k p hp
            simp [mainChild, hf, hv] at hp
      · constructor
        · intro p hp
          simp [mainChild, hf] at hp
        · intro k p hp
          simp [mainChild, hf] at hp
    · cases hv : validate_plan cp context with
      | none =>
        constructor
        · intro p hp
          simp [mainChild, hf, hv] at hp
          rw [hp]
          exact hv
        · intro k p hp
          simp [mainChild, hf, hv] at hp
      | some verr =>
        constructor
        · intro p hp
          simp [mainChild, hf, hv] at hp
        · intro k p hp
          simp [mainChild, hf, hv] at hp

/-- Witness for C6: a cache-miss run with a valid model plan writes that
plan under the fingerprint key, and the written plan validates. -/
theorem c6_invalid_never_applied_or_cached_witness :
    validate_plan ⟨some "p", some [⟨"@1", "a", 0⟩], false⟩
        ⟨"$1", "/", [⟨"@1", 0, "x", []⟩]⟩ = none ∧
      (none : Option RawPlan) = none ∧
      build_cache_key ⟨"$1", "/", [⟨"@1", 0, "x", []⟩]⟩ "" =
        build_cache_key ⟨"$1", "/", [⟨"@1", 0, "x", []⟩]⟩ "" :=
  (c6_invalid_never_applied_or_cached ⟨"$1", "/", [⟨"@1", 0, "x", []⟩]⟩ "" none
      (Sum.inl ⟨some "p", some [⟨"@1", "a", 0⟩], false⟩)).2
    (build_cache_key ⟨"$1", "/", [⟨"@1", 0, "x", []⟩]⟩ "")
    ⟨some "p", some [⟨"@1", "a", 0⟩], false⟩
    (by
      have hv : validate_plan ⟨some "p", some [⟨"@1", "a", 0⟩], false⟩
          ⟨"$1", "/", [⟨"@1", 0, "x", []⟩]⟩ = none := by decide
      simp [mainChild, hv])

theorem scanJson_eq_balancedPrefix_bind :
    ∀ (cs acc : List Char) (depth : Int),
      scanJson acc depth cs = (balancedPrefix acc depth cs).bind json_loads := by
  intro cs
  induction cs with
  | nil => intro acc depth; rfl
  | cons c rest ih =>
    intro acc depth
    simp only [scanJson, balancedPrefix]
    split_ifs <;> first | rfl | exact ih _ _

/-- C5 counterexample: the input `{x} {"a":1}` contains a brace-balanced
object `{"a":1}` that parses as well-formed JSON, yet extraction returns
nothing — the scan only ever tries the first balanced candidate (`{x}`,
which does not parse) and gives up, so it does not return "the first
balanced object which parses". -/
theorem c5_counterexample :
    extract_json_from_output "\x7bx\x7d \x7b\"a\":1\x7d" = none ∧
      json_loads "\x7b\"a\":1\x7d" = some (Json.obj [("a", Json.num 1)]) ∧
      firstBalancedSlice "\x7bx\x7d \x7b\"a\":1\x7d" = some "\x7bx\x7d" ∧
      json_loads "\x7bx\x7d" = none :=
  ⟨rfl, rfl, rfl, rfl⟩

/-- C5 (amended): extraction parses exactly the first balanced
brace-delimited slice after the first `{` (ignoring surrounding prose),
returning its parse when it is well-formed and nothing otherwise — it
never scans further; output without `{` yields the distinct
no-structured-output failure, which `ask_model_for_plan` reports as the
error `"no json in model output"` and never as a silent empty plan; and
the concrete example extracts `{"session":"x","windows":[]}`. -/
theorem c5_extraction_first_balanced_slice :
    (∀ text : String,
      extract_json_from_output text = (firstBalancedSlice text).bind json_loads) ∧
    (∀ text : String, (∀ c ∈ text.data, c ≠ '\x7b') →
      extract_json_from_output text = none) ∧
    (∀ out : String, extract_json_from_output out = none →
      ask_model_for_plan (some out) = (none, some "no json in model output")) ∧
    extract_json_from_output "here's the plan: \x7b\"session\":\"x\",\"windows\":[]\x7d thanks!" =
      some (Json.obj [("session", Json.str "x"), ("windows", Json.arr [])]) := by
  refine ⟨?_, ?_, ?_, rfl⟩
  · intro text
    unfold extract_json_from_output firstBalancedSlice
    cases h : text.data.dropWhile (fun c => c ≠ '\x7b') with
    | nil => rfl
    | cons c cs => exact scanJson_eq_balancedPrefix_bind _ _ _
  · intro text h
    unfold extract_json_from_output
    have hd : text.data.dropWhile (fun c => c ≠ '\x7b') = [] := by
      rw [List.dropWhile_eq_nil_iff]
      intro x hx
      simp [h x hx]
    rw [hd]
  · intro out h
    simp only [ask_model_for_plan, h]

/-- Witness for C5 (amended) at concrete inputs. -/
theorem c5_extraction_first_balanced_slice_witness :
    extract_json_from_output "no braces at all" = none :=
  c5_extraction_first_balanced_slice.2.1 "no braces at all" (by decide)

set_option maxRecDepth 1000000 in
/-- C3 counterexample: one window with two identical panes.  The claim
says duplicate pane descriptor strings do not affect the fingerprint
("sorted set"); the code hashes the sorted *list*, so the fingerprint
differs both from the deduplicating spec reading and from the same
window with a single such pane. -/
theorem c3_counterexample :
    build_cache_key
        ⟨"$1", "/home/u/proj",
          [⟨"@1", 0, "ed", [⟨"zsh", "nvim spec.md", "proj", "/home/u/proj", ""⟩,
                            ⟨"zsh", "nvim spec.md", "proj", "/home/u/proj", ""⟩]⟩]⟩ "" ≠
      specCacheKeySet
        ⟨"$1", "/home/u/proj",
          [⟨"@1", 0, "ed", [⟨"zsh", "nvim spec.md", "proj", "/home/u/proj", ""⟩,
                            ⟨"zsh", "nvim spec.md", "proj", "/home/u/proj", ""⟩]⟩]⟩ "" ∧
      build_cache_key
          ⟨"$1", "/home/u/proj",
            [⟨"@1", 0, "ed", [⟨"zsh", "nvim spec.md", "proj", "/home/u/proj", ""⟩,
                              ⟨"zsh", "nvim spec.md", "proj", "/home/u/proj", ""⟩]⟩]⟩ "" ≠
        build_cache_key
          ⟨"$1", "/home/u/proj",
            [⟨"@1", 0, "ed", [⟨"zsh", "nvim spec.md", "proj", "/home/u/proj", ""⟩]⟩]⟩ "" := by
  exact ⟨by decide, by decide⟩

/-- C3 (amended): the cache fingerprint equals the 16-hex-character
prefix of the SHA-256 digest of: the session path, then the per-window
fingerprints in window order — each the window name plus the sorted
*list* (duplicates preserved) of `cmdlineOrCommand:fullPath` pane
descriptors — then the full enrichment text, all joined by `";"`. -/
theorem c3_fingerprint_matches_spec_with_list (context : SessionContext)
    (opencode_context : String) :
    build_cache_key context opencode_context = specCacheKeyList context opencode_context := rfl

/-- C4 counterexample: with two identical windows, reversing the
two-element window list — i.e. applying the non-identity transposition to
the window order — leaves the fingerprint unchanged, because the permuted
list of windows is equal to the original. -/
theorem c4_counterexample :
    ([⟨"@1", 0, "n", []⟩, ⟨"@1", 0, "n", []⟩] : List WindowContext).reverse =
        [⟨"@1", 0, "n", []⟩, ⟨"@1", 0, "n", []⟩] ∧
      build_cache_key ⟨"$1", "/p", [⟨"@1", 0, "n", []⟩, ⟨"@1", 0, "n", []⟩]⟩ "" =
        build_cache_key
          ⟨"$1", "/p", ([⟨"@1", 0, "n", []⟩, ⟨"@1", 0, "n", []⟩] :
            List WindowContext).reverse⟩ "" :=
  ⟨rfl, rfl⟩

set_option maxRecDepth 1000000 in
/-- C4 (amended): the fingerprint is deterministic; permuting pane order
within windows never changes it; and window order is significant in
general — swapping two windows with distinct per-window fingerprints can
change it (shown concretely) — but a permutation exchanging identical
windows leaves it unchanged, so not every non-identity permutation of the
window order changes the fingerprint. -/
theorem c4_fingerprint_determinism_and_order :
    (∀ (context : SessionContext) (oc : String),
      build_cache_key context oc = build_cache_key context oc) ∧
    (∀ (ctx1 ctx2 : SessionContext) (oc : String),
      ctx1.session_path = ctx2.session_path →
      List.Forall₂ (fun w1 w2 : WindowContext =>
        w1.name = w2.name ∧ w1.panes.Perm w2.panes) ctx1.windows ctx2.windows →
      build_cache_key ctx1 oc = build_cache_key ctx2 oc) ∧
    build_cache_key ⟨"$1", "/p", [⟨"@1", 0, "alpha", []⟩, ⟨"@2", 1, "beta", []⟩]⟩ "" ≠
      build_cache_key ⟨"$1", "/p", [⟨"@2", 1, "beta", []⟩, ⟨"@1", 0, "alpha", []⟩]⟩ "" := by
  refine ⟨fun _ _ => rfl, ?_, by decide⟩
  intro ctx1 ctx2 oc hp hf
  have haux : ∀ (ws1 ws2 : List WindowContext),
      List.Forall₂ (fun w1 w2 : WindowContext =>
        w1.name = w2.name ∧ w1.panes.Perm w2.panes) ws1 ws2 →
      ws1.map windowFingerprint = ws2.map windowFingerprint := by
    intro ws1 ws2 hf2
    induction hf2 with
    | nil => rfl
    | cons hr hrest ih =>
      rw [List.map_cons, List.map_cons, ih]
      rcases hr with ⟨hn, hperm⟩
      have hsorted := insertionSortStr_perm_congr (hperm.map paneFingerprint)
      rw [windowFingerprint, windowFingerprint, hn]
      rw [show sortStrings = List.insertionSort (fun a b => strLeB a b = true) from rfl]
      rw [hsorted]
  rw [build_cache_key, build_cache_key, raw_key, raw_key, hp, haux _ _ hf]

/-- Witness for C4 (amended): swapping the two panes of a window leaves
the fingerprint unchanged. -/
theorem c4_fingerprint_determinism_and_order_witness :
    build_cache_key
        ⟨"$1", "/p", [⟨"@1", 0, "w", [⟨"zsh", "a", "d", "/d", ""⟩,
                                      ⟨"zsh", "b", "d", "/d", ""⟩]⟩]⟩ "" =
      build_cache_key
        ⟨"$1", "/p", [⟨"@1", 0, "w", [⟨"zsh", "b", "d", "/d", ""⟩,
                                      ⟨"zsh", "a", "d", "/d", ""⟩]⟩]⟩ "" :=
  c4_fingerprint_determinism_and_order.2.1 _ _ ""
    rfl
    (List.Forall₂.cons ⟨rfl, List.Perm.swap _ _ _⟩ List.Forall₂.nil)

/- ---------------------------------------------------------------- -/
/- Applier safety (C1): supporting lemmas                            -/
/- ---------------------------------------------------------------- -/

/-- Position of the first plan entry with the given window id. -/
def posOf (id : String) : List WindowPlan → Option Nat
  | [] => none
  | e :: rest => if e.id = id then some 0 else (posOf id rest).map (fun n => n + 1)

/-- The occupancy update phase 2 performs: a window whose id occurs in the
plan at position `j` sits at temporary index `900 + (k + j)` afterwards;
other windows are untouched. -/
def tempIdxUpdate (entries : List WindowPlan) (k : Nat) (p : String × Int) : String × Int :=
  match posOf p.1 entries with
  | some j => (p.1, 900 + ((k + j : Nat) : Int))
  | none => p

theorem posOf_eq_none_iff (id : String) (l : List WindowPlan) :
    posOf id l = none ↔ ∀ e ∈ l, e.id ≠ id := by
  induction l with
  | nil => simp [posOf]
  | cons e rest ih =>
    simp only [posOf]
    by_cases he : e.id = id
    · simp [he]
    · simp [he, Option.map_eq_none', ih]

theorem posOf_lt_length (id : String) (l : List WindowPlan) (j : Nat)
    (h : posOf id l = some j) : j < l.length := by
  induction l generalizing j with
  | nil => simp [posOf] at h
  | cons e rest ih =>
    simp only [posOf] at h
    by_cases he : e.id = id
    · rw [if_pos he] at h
      cases h
      simp
    · rw [if_neg he] at h
      rcases Option.map_eq_some'.mp h with ⟨j', hj', hjj⟩
      have := ih j' hj'
      simp only [List.length_cons]
      omega

theorem cmdsOk_append (l1 l2 : List TmuxCmd) : ∀ s : OccState,
    cmdsOk s (l1 ++ l2) = (cmdsOk s l1 && cmdsOk (runCmds s l1) l2) := by
  induction l1 with
  | nil => intro s; simp [cmdsOk, runCmds]
  | cons c cs ih =>
    intro s
    simp only [List.cons_append, cmdsOk, runCmds, List.foldl_cons]
    rw [show cs.append l2 = cs ++ l2 from rfl]
    rw [ih (applyCmd s c)]
    rw [Bool.and_assoc]
    rfl

theorem cmdsOk_renames (ws : List WindowPlan) : ∀ s : OccState,
    cmdsOk s (ws.map (fun w => TmuxCmd.renameWindow w.id w.name)) = true ∧
      runCmds s (ws.map (fun w => TmuxCmd.renameWindow w.id w.name)) = s := by
  induction ws with
  | nil => intro s; exact ⟨rfl, rfl⟩
  | cons w rest ih =>
    intro s
    obtain ⟨hok, hrun⟩ := ih s
    constructor
    · simp only [List.map_cons, cmdsOk]
      rw [show cmdBlocked s (TmuxCmd.renameWindow w.id w.name) = false from rfl]
      rw [show applyCmd s (TmuxCmd.renameWindow w.id w.name) = s from rfl]
      simp [hok]
    · simp only [List.map_cons, runCmds, List.foldl_cons]
      rw [show applyCmd s (TmuxCmd.renameWindow w.id w.name) = s from rfl]
      exact hrun

theorem phase2_ok (sid : String) : ∀ (entries : List WindowPlan) (k : Nat) (s : OccState),
    (∀ p ∈ s, p.2 < 900 + (k : Int) ∨ 900 + (k : Int) + entries.length ≤ p.2) →
    (entries.map (fun w => w.id)).Nodup →
    cmdsOk s ((entries.enumFrom k).map
      (fun q => TmuxCmd.moveById q.2.id sid (900 + (q.1 : Int)))) = true ∧
    runCmds s ((entries.enumFrom k).map
      (fun q => TmuxCmd.moveById q.2.id sid (900 + (q.1 : Int)))) =
      s.map (tempIdxUpdate entries k) := by
  intro entries
  induction entries with
  | nil =>
    intro k s _ _
    refine ⟨rfl, ?_⟩
    have hmap : s.map (tempIdxUpdate [] k) = s.map id :=
      List.map_congr_left (fun p _ => rfl)
    rw [hmap, List.map_id]
    rfl
  | cons e rest ih =>
    intro k s hr hn
    have hcons : ((e :: rest).enumFrom k).map
        (fun q => TmuxCmd.moveById q.2.id sid (900 + (q.1 : Int))) =
        TmuxCmd.moveById e.id sid (900 + (k : Int)) ::
          (rest.enumFrom (k + 1)).map
            (fun q => TmuxCmd.moveById q.2.id sid (900 + (q.1 : Int))) := rfl
    have hnb : cmdBlocked s (TmuxCmd.moveById e.id sid (900 + (k : Int))) = false := by
      simp only [cmdBlocked]
      rw [List.any_eq_false]
      intro p hp
      simp only [decide_eq_true_eq, not_and]
      intro _ h2
      rcases hr p hp with h | h
      · omega
      · simp only [List.length_cons] at h
        push_cast at h
        omega
    have happ : applyCmd s (TmuxCmd.moveById e.id sid (900 + (k : Int))) =
        s.map (fun p => if p.1 = e.id then (p.1, 900 + (k : Int)) else p) := rfl
    have hr' : ∀ p ∈ s.map (fun p => if p.1 = e.id then (p.1, 900 + (k : Int)) else p),
        p.2 < 900 + ((k + 1 : Nat) : Int) ∨
          900 + ((k + 1 : Nat) : Int) + rest.length ≤ p.2 := by
      intro p hp
      rcases List.mem_map.mp hp with ⟨q, hq, hqe⟩
      by_cases hqid : q.1 = e.id
      · rw [if_pos hqid] at hqe
        rw [← hqe]
        left
        push_cast
        omega
      · rw [if_neg hqid] at hqe
        rw [← hqe]
        rcases hr q hq with h | h
        · left
          push_cast
          omega
        · right
          simp only [List.length_cons] at h
          push_cast at h ⊢
          omega
    have hn' : (rest.map (fun w => w.id)).Nodup := (List.nodup_cons.mp hn).2
    have hen : e.id ∉ rest.map (fun w => w.id) := (List.nodup_cons.mp hn).1
    obtain ⟨ihok, ihrun⟩ := ih (k + 1)
      (s.map (fun p => if p.1 = e.id then (p.1, 900 + (k : Int)) else p)) hr' hn'
    rw [hcons]
    constructor
    · show (!cmdBlocked s (TmuxCmd.moveById e.id sid (900 + (k : Int))) &&
        cmdsOk (applyCmd s (TmuxCmd.moveById e.id sid (900 + (k : Int))))
          ((rest.enumFrom (k + 1)).map
            (fun q => TmuxCmd.moveById q.2.id sid (900 + (q.1 : Int))))) = true
      rw [hnb, happ, ihok]
      rfl
    · show runCmds (applyCmd s (TmuxCmd.moveById e.id sid (900 + (k : Int))))
        ((rest.enumFrom (k + 1)).map
          (fun q => TmuxCmd.moveById q.2.id sid (900 + (q.1 : Int)))) =
        s.map (tempIdxUpdate (e :: rest) k)
      rw [happ, ihrun, List.map_map]
      apply List.map_congr_left
      intro p _
      simp only [Function.comp]
      by_cases hpe : p.1 = e.id
      · rw [if_pos hpe]
        have hnone : posOf p.1 rest = none := by
          rw [posOf_eq_none_iff]
          intro x hx hxe
          apply hen
          rw [← hpe, ← hxe]
          exact List.mem_map_of_mem (fun w => w.id) hx
        have hsome : posOf p.1 (e :: rest) = some 0 := by
          simp [posOf, hpe]
        simp only [tempIdxUpdate, hnone, hsome]
        norm_num
      · rw [if_neg hpe]
        have hhead : posOf p.1 (e :: rest) = (posOf p.1 rest).map (fun n => n + 1) := by
          simp only [posOf]
          rw [if_neg (fun h => hpe h.symm)]
        cases hrest : posOf p.1 rest with
        | none =>
          simp only [tempIdxUpdate, hhead, hrest, Option.map_none']
        | some j =>
          simp only [tempIdxUpdate, hhead, hrest, Option.map_some']
          have : ((k + 1 + j : Nat) : Int) = ((k + (j + 1) : Nat) : Int) := by
            push_cast
            omega
          rw [this]

theorem phase3_ok (sid : String) : ∀ (entries : List WindowPlan) (k : Nat) (s : OccState),
    (∀ p ∈ s, ∀ e ∈ entries, p.2 ≠ e.index) →
    (entries.map (fun w => w.index)).Nodup →
    cmdsOk s ((entries.enumFrom k).map
      (fun q => TmuxCmd.moveByIdx sid (900 + (q.1 : Int)) q.2.index)) = true := by
  intro entries
  induction entries with
  | nil => intro k s _ _; rfl
  | cons e rest ih =>
    intro k s hAvoid hn
    have hcons : ((e :: rest).enumFrom k).map
        (fun q => TmuxCmd.moveByIdx sid (900 + (q.1 : Int)) q.2.index) =
        TmuxCmd.moveByIdx sid (900 + (k : Int)) e.index ::
          (rest.enumFrom (k + 1)).map
            (fun q => TmuxCmd.moveByIdx sid (900 + (q.1 : Int)) q.2.index) := rfl
    have hnb : cmdBlocked s (TmuxCmd.moveByIdx sid (900 + (k : Int)) e.index) = false := by
      simp only [cmdBlocked]
      have hany : s.any (fun p => p.2 = e.index) = false := by
        rw [List.any_eq_false]
        intro p hp
        simp only [decide_eq_true_eq]
        exact hAvoid p hp e (by simp)
      rw [hany, Bool.and_false]
    have happ : applyCmd s (TmuxCmd.moveByIdx sid (900 + (k : Int)) e.index) =
        s.map (fun p => if p.2 = 900 + (k : Int) then (p.1, e.index) else p) := rfl
    have hAvoid' : ∀ p ∈ s.map (fun p => if p.2 = 900 + (k : Int) then (p.1, e.index) else p),
        ∀ e' ∈ rest, p.2 ≠ e'.index := by
      intro p hp e' he'
      rcases List.mem_map.mp hp with ⟨q, hq, hqe⟩
      by_cases hqt : q.2 = 900 + (k : Int)
      · rw [if_pos hqt] at hqe
        rw [← hqe]
        intro hcontra
        have hcontra2 : e.index = e'.index := hcontra
        have hne : e.index ∉ rest.map (fun w => w.index) := (List.nodup_cons.mp hn).1
        apply hne
        rw [hcontra2]
        exact List.mem_map_of_mem (fun w => w.index) he'
      · rw [if_neg hqt] at hqe
        rw [← hqe]
        exact hAvoid q hq e' (by simp [he'])
    have hn' : (rest.map (fun w => w.index)).Nodup := (List.nodup_cons.mp hn).2
    rw [hcons]
    show (!cmdBlocked s (TmuxCmd.moveByIdx sid (900 + (k : Int)) e.index) &&
      cmdsOk (applyCmd s (TmuxCmd.moveByIdx sid (900 + (k : Int)) e.index))
        ((rest.enumFrom (k + 1)).map
          (fun q => TmuxCmd.moveByIdx sid (900 + (q.1 : Int)) q.2.index))) = true
    rw [hnb, happ, ih (k + 1) _ hAvoid' hn']
    rfl

/-- C1 (amended): for a validated plan with pairwise-distinct entry ids,
provided every live window index and every planned target index lies
outside the temporary range `[900, 900 + N)` used by phase 2, the
two-phase applier never issues a move whose target index is occupied by a
window that has not yet vacated it.  (As stated the claim is false:
validation does not bound indices, so a validated plan may target an
index inside the temporary range — see the counterexample.) -/
theorem c1_two_phase_applier_safe (context : SessionContext) (plan : RawPlan)
    (ws : List WindowPlan) (session_id sessionName : String)
    (hw : plan.windows = some ws)
    (hval : validate_plan plan context = none)
    (hNodupIds : (ws.map (fun w => w.id)).Nodup)
    (hPlanRange : ∀ w ∈ ws, w.index < 900 ∨ 900 + (ws.length : Int) ≤ w.index)
    (hCtxRange : ∀ w ∈ context.windows, w.index < 900 ∨ 900 + (ws.length : Int) ≤ w.index) :
    cmdsOk (initOcc context) (apply_organization_plan session_id sessionName ws) = true := by
  cases hses : plan.session with
  | none => simp [validate_plan, hses] at hval
  | some sname =>
  simp only [validate_plan, hses, hw] at hval
  by_cases hse : setEqStr (context.windows.map (fun w => w.id))
      (ws.map (fun w => w.id)) = true
  case neg =>
    rw [if_neg hse] at hval
    exact absurd hval (by simp)
  case pos =>
  rw [if_pos hse] at hval
  by_cases hnd : (ws.map (fun w => w.index)).dedup.length =
      (ws.map (fun w => w.index)).length
  case neg =>
    rw [if_neg hnd] at hval
    exact absurd hval (by simp)
  case pos =>
  have hNodupIdx : (ws.map (fun w => w.index)).Nodup := (nodup_iff_dedup_length _).mp hnd
  have hsub : ∀ x ∈ context.windows.map (fun w => w.id), x ∈ ws.map (fun w => w.id) :=
    fun x hx => ((setEqStr_iff _ _).mp hse x).mp hx
  unfold apply_organization_plan
  rw [List.append_assoc, List.append_assoc]
  rw [cmdsOk_append]
  obtain ⟨hrok, hrrun⟩ := cmdsOk_renames ws (initOcc context)
  rw [hrok, hrrun, Bool.true_and]
  rw [show ws.enum = ws.enumFrom 0 from rfl]
  rw [cmdsOk_append]
  have hr0 : ∀ p ∈ initOcc context, p.2 < 900 + ((0 : Nat) : Int) ∨
      900 + ((0 : Nat) : Int) + ws.length ≤ p.2 := by
    intro p hp
    rcases List.mem_map.mp hp with ⟨w, hwmem, hwe⟩
    have hp2 : p.2 = w.index := by rw [← hwe]
    rw [hp2]
    rcases hCtxRange w hwmem with h | h
    · left
      push_cast
      omega
    · right
      push_cast
      omega
  obtain ⟨h2ok, h2run⟩ := phase2_ok session_id ws 0 (initOcc context) hr0 hNodupIds
  rw [h2ok, Bool.true_and, h2run]
  rw [cmdsOk_append]
  have hAvoid : ∀ p ∈ (initOcc context).map (tempIdxUpdate ws 0),
      ∀ e ∈ ws, p.2 ≠ e.index := by
    intro p hp e he
    rcases List.mem_map.mp hp with ⟨q, hq, hqe⟩
    rcases List.mem_map.mp hq with ⟨w, hwmem, hwe⟩
    cases hpos : posOf q.1 ws with
    | some j =>
      have hj := posOf_lt_length _ _ _ hpos
      have hpe : p = (q.1, 900 + ((0 + j : Nat) : Int)) := by
        rw [← hqe]
        simp only [tempIdxUpdate, hpos]
      rw [hpe]
      rcases hPlanRange e he with h | h
      · intro hcontra
        have hcontra2 : 900 + ((0 + j : Nat) : Int) = e.index := hcontra
        push_cast at hcontra2
        omega
      · intro hcontra
        have hcontra2 : 900 + ((0 + j : Nat) : Int) = e.index := hcontra
        push_cast at hcontra2
        omega
    | none =>
      exfalso
      rw [posOf_eq_none_iff] at hpos
      have hqid : q.1 = w.id := by rw [← hwe]
      have hmem : q.1 ∈ ws.map (fun w => w.id) := by
        apply hsub
        rw [hqid]
        exact List.mem_map_of_mem (fun w => w.id) hwmem
      rcases List.mem_map.mp hmem with ⟨e2, he2, he2id⟩
      exact hpos e2 he2 he2id
  have h3 := phase3_ok session_id ws 0 ((initOcc context).map (tempIdxUpdate ws 0))
    hAvoid hNodupIdx
  rw [h3, Bool.true_and]
  rfl

/-- C1 counterexample: a plan targeting indices 901 and 0 for a two-window
session at indices 0 and 1 passes validation (validation does not bound
indices), yet phase 3's first move — from temporary index 900 to target
901 — finds 901 still occupied by the second window, which was parked at
temporary index 901 and has not yet vacated it. -/
theorem c1_counterexample :
    validate_plan ⟨some "p", some [⟨"@1", "x", 901⟩, ⟨"@2", "y", 0⟩], false⟩
        ⟨"$1", "/p", [⟨"@1", 0, "a", []⟩, ⟨"@2", 1, "b", []⟩]⟩ = none ∧
      cmdsOk (initOcc ⟨"$1", "/p", [⟨"@1", 0, "a", []⟩, ⟨"@2", 1, "b", []⟩]⟩)
        (apply_organization_plan "$1" "p" [⟨"@1", "x", 901⟩, ⟨"@2", "y", 0⟩]) = false := by
  exact ⟨by decide, by decide⟩

/-- Witness for C1 (amended) at a concrete two-window swap. -/
theorem c1_two_phase_applier_safe_witness :
    cmdsOk (initOcc ⟨"$1", "/p", [⟨"@1", 0, "a", []⟩, ⟨"@2", 1, "b", []⟩]⟩)
      (apply_organization_plan "$1" "p" [⟨"@1", "x", 1⟩, ⟨"@2", "y", 0⟩]) = true :=
  c1_two_phase_applier_safe ⟨"$1", "/p", [⟨"@1", 0, "a", []⟩, ⟨"@2", 1, "b", []⟩]⟩
    ⟨some "p", some [⟨"@1", "x", 1⟩, ⟨"@2", "y", 0⟩], false⟩
    [⟨"@1", "x", 1⟩, ⟨"@2", "y", 0⟩] "$1" "p"
    rfl (by decide) (by decide) (by decide) (by decide)
